import Mathlib

/-!
Verification of the staged test-execution engine.

A shallow embedding of the repository's core (stages.py, metrics.py,
test_factory.py, test_suites.py) together with proofs about it.

Modelling conventions:
* Python values are embedded as the inductive type `Value`
  (None / bool / number / string / list / dict).  Python numbers are
  modelled as exact rationals (`ℚ`); dicts as insertion-ordered
  association lists.
* Fallible Python code is modelled in `Except PyErr`; a raised exception
  becomes `.error e`, a normal return becomes `.ok v`.
* `numpy` is an external collaborator.  `np.min/max/median/percentile`
  on a 1-d float array are implemented exactly (linear interpolation
  between closest ranks, as numpy does); `np.std` involves a real square
  root and is kept as an explicit function parameter `npStd` supplied to
  the metrics code, since no theorem below depends on its value.
* Error message strings follow the source but omit the quote characters
  around interpolated fragments.
-/

/-- Embedded Python value.  `num` carries an exact rational (Python
floats are treated as exact numbers), `dict` is an insertion-ordered
association list keyed by strings, as Python dicts are. -/
inductive Value where
  | none : Value
  | bool (b : Bool) : Value
  | num (q : ℚ) : Value
  | str (s : String) : Value
  | list (elems : List Value) : Value
  | dict (entries : List (String × Value)) : Value

/-- Embedded Python exception. -/
inductive PyErr where
  | valueError (msg : String) : PyErr
  | attributeError : PyErr
  | typeError : PyErr
deriving DecidableEq

/-- `str(e)` for the except-branches that stringify an exception.  Only
the `ValueError` messages are ever asserted on below. -/
def errStr : PyErr → String
  | .valueError msg => msg
  | .attributeError => "AttributeError"
  | .typeError => "TypeError"

instance {ε α : Type} [DecidableEq ε] [DecidableEq α] : DecidableEq (Except ε α) := fun a b =>
  match a, b with
  | .ok x, .ok y =>
    match decEq x y with
    | isTrue h => isTrue (by rw [h])
    | isFalse h => isFalse (fun hc => h (Except.ok.inj hc))
  | .error x, .error y =>
    match decEq x y with
    | isTrue h => isTrue (by rw [h])
    | isFalse h => isFalse (fun hc => h (Except.error.inj hc))
  | .ok _, .error _ => isFalse (fun hc => Except.noConfusion hc)
  | .error _, .ok _ => isFalse (fun hc => Except.noConfusion hc)

/-- Python truthiness of an embedded value (`if x:`). -/
def truthy : Value → Bool
  | .none => false
  | .bool b => b
  | .num q => decide (q ≠ 0)
  | .str s => decide (s ≠ "")
  | .list xs => !xs.isEmpty
  | .dict d => !d.isEmpty

/-- First binding of a key in an association list (`d[k]` / `d.get(k)`
on a dict with unique keys). -/
def lookupKey {α : Type} (k : String) : List (String × α) → Option α
  | [] => Option.none
  | (k2, v) :: rest => if k2 = k then some v else lookupKey k rest

/-- `k in d` for a dict. -/
def hasKey {α : Type} (k : String) (d : List (String × α)) : Bool :=
  (lookupKey k d).isSome

/-- Replace every binding of `k` by `v`, keeping its position.  (Keys
of an embedded dict are unique, so at most one binding is replaced.) -/
def replaceKey {α : Type} : List (String × α) → String → α → List (String × α)
  | [], _, _ => []
  | (k2, v2) :: rest, k, v =>
    if k2 = k then (k, v) :: replaceKey rest k v else (k2, v2) :: replaceKey rest k v

/-- `d[k] = v` on a dict: replaces the value in place if the key is
present (keeping its position, as Python dicts do), appends otherwise. -/
def dictSet {α : Type} (d : List (String × α)) (k : String) (v : α) : List (String × α) :=
  if hasKey k d then replaceKey d k v else d ++ [(k, v)]

/-- `x.get(k)` on an embedded value: dictionary lookup defaulting to
`None`; any non-dict receiver raises `AttributeError`. -/
def vGet (v : Value) (k : String) : Except PyErr Value :=
  match v with
  | .dict d => .ok ((lookupKey k d).getD Value.none)
  | _ => .error .attributeError

/-- `x.get(k, dflt)` on an embedded value. -/
def vGetD (v : Value) (k : String) (dflt : Value) : Except PyErr Value :=
  match v with
  | .dict d => .ok ((lookupKey k d).getD dflt)
  | _ => .error .attributeError

/-- `len(x)`: defined for lists, strings and dicts; raises `TypeError`
otherwise (as `len` does on numbers and booleans). -/
def pyLen : Value → Except PyErr ℚ
  | .list xs => .ok (xs.length : ℚ)
  | .str s => .ok (s.length : ℚ)
  | .dict d => .ok (d.length : ℚ)
  | _ => .error .typeError

/-- The `status` field of a stage output, when the output is a dict. -/
def statusOf (v : Value) : Option Value :=
  match v with
  | .dict d => lookupKey "status" d
  | _ => Option.none

/-! ## numpy collaborator: sort / min / max / median / percentile

`np.percentile(a, q)` uses linear interpolation between closest ranks:
with the data sorted ascending and `h = q * (n - 1) / 100`, the result is
`a[floor h] + (h - floor h) * (a[ceil h] - a[floor h])`. -/

/-- Ascending sort of a float array (`np.sort`). -/
def npSort (data : List ℚ) : List ℚ :=
  List.insertionSort (· ≤ ·) data

/-- `np.min` of a non-empty array (0 on the empty array, which numpy
rejects; that case is guarded before every use). -/
def npMin : List ℚ → ℚ
  | [] => 0
  | x :: xs => xs.foldl min x

/-- `np.max` of a non-empty array. -/
def npMax : List ℚ → ℚ
  | [] => 0
  | x :: xs => xs.foldl max x

/-- `np.median`: middle element for odd length, mean of the two middle
elements for even length. -/
def npMedian (data : List ℚ) : ℚ :=
  if data.length % 2 = 1 then
    (npSort data).getD (data.length / 2) 0
  else
    ((npSort data).getD (data.length / 2 - 1) 0 + (npSort data).getD (data.length / 2) 0) / 2

/-- Linear interpolation of a sorted array `s` of length `n` at the
fractional rank `h`: `s[floor h] + (h - floor h) * (s[ceil h] - s[floor h])`
(the upper index is clamped to `n - 1`). -/
def interpAt (s : List ℚ) (n : ℕ) (h : ℚ) : ℚ :=
  s.getD (⌊h⌋.toNat) 0
    + (h - ((⌊h⌋.toNat : ℕ) : ℚ))
      * (s.getD (min (⌊h⌋.toNat + 1) (n - 1)) 0 - s.getD (⌊h⌋.toNat) 0)

/-- `np.percentile(data, q)` with numpy's default linear interpolation. -/
def npPercentile (data : List ℚ) (q : ℚ) : ℚ :=
  interpAt (npSort data) data.length (q * ((data.length : ℚ) - 1) / 100)

/-! ## metrics.py -/

/-- `MetricsResult` dataclass of metrics.py. -/
structure MetricsResult where
  min : ℚ
  max : ℚ
  median : ℚ
  std_dev : ℚ
  percentile_90 : ℚ
  percentile_95 : ℚ
  percentile_99 : ℚ
deriving DecidableEq

/-- The record built by `MetricsCalculator.calculate_metrics` from a
non-empty float array.  `npStd` is the external `np.std` collaborator
(population standard deviation over the reals; its value is irrelevant
to every theorem below). -/
def rawMetrics (npStd : List ℚ → ℚ) (data : List ℚ) : MetricsResult :=
  { min := npMin data
    max := npMax data
    median := npMedian data
    std_dev := npStd data
    percentile_90 := npPercentile data 90
    percentile_95 := npPercentile data 95
    percentile_99 := npPercentile data 99 }

namespace MetricsCalculator

/-- `MetricsCalculator.calculate_metrics` on an input that is already a
list of floats: the empty-input guard raises, otherwise the
`MetricsResult` is built. -/
def calculate_metrics (npStd : List ℚ → ℚ) (data : List ℚ) : Except PyErr MetricsResult :=
  if data.isEmpty then .error (.valueError "Cannot calculate metrics for empty dataset")
  else .ok (rawMetrics npStd data)

end MetricsCalculator

/-- Elementwise `np.array(xs, dtype=float)` on a Python list: numbers
convert to themselves, booleans to 0/1; anything else (strings, nested
lists, dicts, None) is treated as a conversion failure.  (Strings that
happen to parse as floats are not modelled.) -/
def toFloatList : List Value → Option (List ℚ)
  | [] => some []
  | .num x :: rest => (toFloatList rest).map (fun t => x :: t)
  | .bool b :: rest => (toFloatList rest).map (fun t => (if b then (1 : ℚ) else 0) :: t)
  | _ => Option.none

/-- `np.array(data, dtype=float)` on an arbitrary Python value: a list
converts elementwise; a bare number or boolean converts to a 0-d array,
modelled as a singleton (numpy's min/max/median/percentile agree with
the singleton on a 0-d array); everything else fails. -/
def toFloatArray : Value → Option (List ℚ)
  | .num x => some [x]
  | .bool b => some [if b then (1 : ℚ) else 0]
  | .list xs => toFloatList xs
  | _ => Option.none

/-- Round-half-to-even on an exact rational, the tie-breaking rule of
Python's built-in `round`. -/
def roundHalfEven (x : ℚ) : ℤ :=
  if x - ⌊x⌋ < 1 / 2 then ⌊x⌋
  else if 1 / 2 < x - ⌊x⌋ then ⌊x⌋ + 1
  else if 2 ∣ ⌊x⌋ then ⌊x⌋ else ⌊x⌋ + 1

/-- `round(x, 2)` on an exact rational.  (Python's `round` acts on
binary floats, so on values not exactly representable in binary it can
differ from the exact-decimal result modelled here.) -/
def round2 (x : ℚ) : ℚ :=
  (roundHalfEven (100 * x) : ℚ) / 100

namespace MetricsCalculator

/-- `MetricsCalculator.calculate_metrics` applied to an arbitrary Python
value, as the stage code does: `if not data:` is Python truthiness, the
`np.array` conversion failure is re-raised as the dedicated
`ValueError`, and the converted float list goes through
`calculate_metrics`. -/
def calculate_metricsV (npStd : List ℚ → ℚ) (data : Value) : Except PyErr MetricsResult :=
  if truthy data = false then .error (.valueError "Cannot calculate metrics for empty dataset")
  else
    match toFloatArray data with
    | some xs => calculate_metrics npStd xs
    | Option.none => .error (.valueError "Input data must contain only numerical values")

/-- `MetricsCalculator.format_metrics`: every reported value is rounded
to 2 decimal places via `round2`. -/
def format_metrics (m : MetricsResult) : List (String × ℚ) :=
  [("min", round2 m.min), ("max", round2 m.max), ("median", round2 m.median),
   ("std_dev", round2 m.std_dev), ("p90", round2 m.percentile_90),
   ("p95", round2 m.percentile_95), ("p99", round2 m.percentile_99)]

/-- `MetricsCalculator.process_metrics`: calculate then format. -/
def process_metricsV (npStd : List ℚ → ℚ) (data : Value) : Except PyErr (List (String × ℚ)) :=
  (calculate_metricsV npStd data).map format_metrics

end MetricsCalculator

/-! ## stages.py -/

/-- A `Stage` wraps a name and an action.  Every call site of
`Stage.execute` in the repository passes exactly one positional
argument, so the action is modelled as a one-argument function. -/
structure Stage where
  name : String
  action : Value → Except PyErr Value

/-- `Stage.execute`: pure delegation to the wrapped action, with no
exception handling. -/
def Stage.execute (s : Stage) (arg : Value) : Except PyErr Value :=
  s.action arg

/-- `connect_stage`: prints and returns `True`. -/
def connect_stage : Value → Except PyErr Value :=
  fun _app_name => .ok (.bool true)

/-- `get_log_stage`: prints and returns the dummy log path. -/
def get_log_stage : Value → Except PyErr Value :=
  fun _app_name => .ok (.str "dummy_log.txt")

/-- `inject_data_stage`: prints and returns a success dict. -/
def inject_data_stage : Value → Except PyErr Value :=
  fun _batch_data => .ok (.dict [("status", .str "success")])

/-- The `for stage_name in ['send_batch', 'read_log']` extraction loop
of `calculate_metrics_stage`: the first key that is present in the
result map and whose `response_times` field is truthy wins; if every
examined key is absent or carries a falsy `response_times`, the loop
falls through with nothing found (`.ok none`). -/
def extractResponseTimes : List String → List (String × Value) → Except PyErr (Option Value)
  | [], _ => .ok Option.none
  | name :: rest, results =>
    match lookupKey name results with
    | some entry =>
      match vGet entry "response_times" with
      | .error e => .error e
      | .ok rt => if truthy rt then .ok (some rt) else extractResponseTimes rest results
    | Option.none => extractResponseTimes rest results

/-- The `try:` block of `calculate_metrics_stage`: compute and format
the metrics, then build the success dict (whose `sample_size` entry
evaluates `len(response_times)`, and whose `source` entry is
`"send_batch" if "send_batch" in results else "read_log"`). -/
def metricsTryBlock (npStd : List ℚ → ℚ) (results : List (String × Value))
    (response_times : Value) : Except PyErr Value :=
  match MetricsCalculator.process_metricsV npStd response_times with
  | .error e => .error e
  | .ok metrics =>
    match pyLen response_times with
    | .error e => .error e
    | .ok n =>
      .ok (.dict [("metrics", .dict (metrics.map (fun p => (p.1, Value.num p.2)))),
                  ("status", .str "success"),
                  ("sample_size", .num n),
                  ("source", .str (if hasKey "send_batch" results then "send_batch" else "read_log")),
                  ("response_times", response_times)])

/-- `calculate_metrics_stage`: extract `response_times` (searching
`send_batch` then `read_log`), raise the missing-data `ValueError` when
nothing truthy was found, and otherwise run the try-block, converting
any exception it raises into an `{"status": "error", ...}` return. -/
def calculate_metrics_stage (npStd : List ℚ → ℚ) (results : List (String × Value)) :
    Except PyErr Value :=
  match extractResponseTimes ["send_batch", "read_log"] results with
  | .error e => .error e
  | .ok Option.none => .error (.valueError "No response times found in results")
  | .ok (some response_times) =>
    match metricsTryBlock npStd results response_times with
    | .error e => .ok (.dict [("status", .str "error"), ("error", .str (errStr e))])
    | .ok v => .ok v

/-- Python's `str.title()` restricted to space-separated words, which is
all the graph-title code ever feeds it. -/
def pyTitle (s : String) : String :=
  String.intercalate " " ((s.splitOn " ").map (fun w =>
    match w.data with
    | [] => ""
    | c :: cs => String.mk (c.toUpper :: cs.map Char.toLower)))

/-- Title of the scatter plot built by `create_graphs_stage`. -/
def scatterTitle (source : String) : String :=
  "Response Times Over Time - " ++ pyTitle (source.replace "_" " ")

/-- Title of the multi-plot analysis built by `create_graphs_stage`. -/
def analysisTitle (source : String) : String :=
  "Response Time Analysis - " ++ pyTitle (source.replace "_" " ")

/-- The external graphing collaborator of graph.py: two entry points,
each taking the sample sequence and a title and returning the path of
the file it wrote (or raising). -/
structure ResponseTimeGrapher where
  create_scatter_plot : Value → String → Except PyErr String
  create_multi_plot : Value → String → Except PyErr String

/-- The `try:` block of `create_graphs_stage`: `source.replace` raises
`AttributeError` on a non-string source; otherwise both renderings are
delegated to the grapher and the success dict is built. -/
def graphsTryBlock (grapher : ResponseTimeGrapher) (response_times source : Value) :
    Except PyErr Value :=
  match source with
  | .str s =>
    match grapher.create_scatter_plot response_times (scatterTitle s) with
    | .error e => .error e
    | .ok scatter_path =>
      match grapher.create_multi_plot response_times (analysisTitle s) with
      | .error e => .error e
      | .ok analysis_path =>
        .ok (.dict [("status", .str "success"),
                    ("graphs", .dict [("scatter_plot", .str scatter_path),
                                      ("analysis_plot", .str analysis_path)])])
  | _ => .error .attributeError

/-- `create_graphs_stage`: read `response_times` and `source` from the
`calculate_metrics` entry of the result map (defaulting to an empty
dict when the entry is absent), raise the missing-data `ValueError`
when `response_times` is falsy, and otherwise run the try-block,
converting any exception into an error-status return. -/
def create_graphs_stage (grapher : ResponseTimeGrapher) (results : List (String × Value)) :
    Except PyErr Value :=
  match vGet ((lookupKey "calculate_metrics" results).getD (.dict [])) "response_times" with
  | .error e => .error e
  | .ok response_times =>
    match vGetD ((lookupKey "calculate_metrics" results).getD (.dict [])) "source" (.str "unknown") with
    | .error e => .error e
    | .ok source =>
      if truthy response_times = false then
        .error (.valueError "No response times found in metrics results")
      else
        match graphsTryBlock grapher response_times source with
        | .error e => .ok (.dict [("status", .str "error"), ("error", .str (errStr e))])
        | .ok v => .ok v

/-- The `calculate_metrics` entry of a result map is missing its data:
the entry is absent, or it is a dict whose `response_times` field is
absent or falsy. -/
def graphInputMissing (results : List (String × Value)) : Bool :=
  match lookupKey "calculate_metrics" results with
  | Option.none => true
  | some (.dict d) =>
    match lookupKey "response_times" d with
    | Option.none => true
    | some rt => !truthy rt
  | some _ => false

/-- Key `k` of the result map supplies response times: its entry is a
dict whose `response_times` field is present and truthy (an absent
field reads as `None`, which is falsy — exactly the
`results[k].get('response_times')` truthiness the stage tests). -/
def suppliesResponseTimes (results : List (String × Value)) (k : String) : Bool :=
  match lookupKey k results with
  | some (.dict d) => truthy ((lookupKey "response_times" d).getD Value.none)
  | _ => false

/-- `isNum v` holds exactly on embedded numbers. -/
def isNum : Value → Bool
  | .num _ => true
  | _ => false

/-- Stage-output-contract shape of one entry of the result map (spec
§3): when present, the entry under an examined key is a dict, and its
`response_times` field, when present, is a sequence of numeric
values. -/
def wfEntry : Option Value → Bool
  | Option.none => true
  | some (.dict d) =>
    match lookupKey "response_times" d with
    | Option.none => true
    | some (.list xs) => xs.all isNum
    | some _ => false
  | some _ => false

/-- The result map satisfies the stage-output contract at the two keys
`calculate_metrics_stage` examines. -/
def resultMapWF (results : List (String × Value)) : Bool :=
  wfEntry (lookupKey "send_batch" results) && wfEntry (lookupKey "read_log" results)

/-- `get_replay_stages` (the deterministic stage collection used by the
replay pipeline). -/
def get_replay_stages : List Stage :=
  [⟨"connect", connect_stage⟩, ⟨"get_log", get_log_stage⟩, ⟨"inject_data", inject_data_stage⟩]

/-! ## test_factory.py: the three test kinds -/

/-- The argument-binding rule of `ReplayTest.run`: the `if/elif` chain
over the stage name. -/
def replayArg (app_name log_path : String) (batch_data : Value)
    (results : List (String × Value)) (stageName : String) : Value :=
  if stageName = "connect" then .str app_name
  else if stageName = "get_log" then .str app_name
  else if stageName = "read_log" then .str log_path
  else if stageName = "inject_data" then batch_data
  else .dict results

/-- The argument-binding rule of `PerformanceTest.run`. -/
def performanceArg (app_name : String) (batch_data : Value)
    (results : List (String × Value)) (stageName : String) : Value :=
  if stageName = "connect" then .str app_name
  else if stageName = "send_batch" then batch_data
  else .dict results

/-- The argument-binding rule of `RecoveryTest.run`: `read_log` always
receives the hard-coded `"dummy_recovery_log.txt"`. -/
def recoveryArg (app_name : String) (results : List (String × Value)) (stageName : String) : Value :=
  if stageName = "connect" then .str app_name
  else if stageName = "read_log" then .str "dummy_recovery_log.txt"
  else .dict results

/-- The shared stage loop of the three `run` methods: starting from the
accumulated result map, execute each stage on the argument the binding
rule selects and store its result under the stage's name; a raised
exception aborts the loop and propagates. -/
def runStages (bindArg : List (String × Value) → String → Value) :
    List Stage → List (String × Value) → Except PyErr (List (String × Value))
  | [], results => .ok results
  | stage :: rest, results =>
    match Stage.execute stage (bindArg results stage.name) with
    | .error e => .error e
    | .ok v => runStages bindArg rest (dictSet results stage.name v)

namespace ReplayTest

/-- `ReplayTest.run`.  The result map starts empty; `kwargs` is accepted
and ignored, as in the source. -/
def run (app_name : String) (stages : List Stage) (log_path : String) (batch_data : Value)
    (_kwargs : List (String × Value)) : Except PyErr (List (String × Value)) :=
  runStages (replayArg app_name log_path batch_data) stages []

end ReplayTest

namespace PerformanceTest

/-- `PerformanceTest.run`. -/
def run (app_name : String) (stages : List Stage) (batch_data : Value)
    (_kwargs : List (String × Value)) : Except PyErr (List (String × Value)) :=
  runStages (performanceArg app_name batch_data) stages []

end PerformanceTest

namespace RecoveryTest

/-- `RecoveryTest.run`: only `app_name` and the stage list are
parameters; the binding rule ignores the keyword arguments, and the
`read_log` path is the hard-coded constant inside `recoveryArg`. -/
def run (app_name : String) (stages : List Stage)
    (_kwargs : List (String × Value)) : Except PyErr (List (String × Value)) :=
  runStages (recoveryArg app_name) stages []

end RecoveryTest

/-- The three registered test kinds. -/
inductive TestKind where
  | replay : TestKind
  | performance : TestKind
  | recovery : TestKind

/-- Dispatch to the `run` method of a test kind. `log_path` and
`batch_data` are the fixed inputs a strategy may supply; kinds whose
`run` does not declare them ignore them. -/
def runOf (k : TestKind) (app_name : String) (stages : List Stage) (log_path : String)
    (batch_data : Value) (kwargs : List (String × Value)) :
    Except PyErr (List (String × Value)) :=
  match k with
  | .replay => ReplayTest.run app_name stages log_path batch_data kwargs
  | .performance => PerformanceTest.run app_name stages batch_data kwargs
  | .recovery => RecoveryTest.run app_name stages kwargs

/-! ## test_factory.py: TestFactory registry -/

/-- A registered test class, as far as the registry inspects it: its
`__name__` (used in the validation error message) and whether it
inherits from `Test` (the `issubclass` capability check). -/
structure TestClass where
  pyName : String
  inheritsTest : Bool
deriving DecidableEq

namespace TestFactory

/-- `TestFactory.register`: the capability check runs first, the
duplicate check second, and only then is the class appended. -/
def register (registry : List (String × TestClass)) (test_type : String)
    (test_class : TestClass) : Except PyErr (List (String × TestClass)) :=
  if test_class.inheritsTest = false then
    .error (.valueError ("Class " ++ test_class.pyName ++ " must inherit from Test"))
  else if hasKey test_type registry then
    .error (.valueError ("Test type " ++ test_type ++ " is already registered"))
  else
    .ok (registry ++ [(test_type, test_class)])

/-- `TestFactory.unregister`: `pop(test_type, None)` — remove the
binding if present, do nothing otherwise, never raise. -/
def unregister : List (String × TestClass) → String → List (String × TestClass)
  | [], _ => []
  | (k, v) :: rest, test_type =>
    if k = test_type then rest else (k, v) :: unregister rest test_type

end TestFactory

/-! ## test_suites.py: TestExecutionFactory registry and strategies -/

namespace TestExecutionFactory

/-- `TestExecutionFactory.register_strategy`: plain dict assignment —
silently overwrites an existing binding. -/
def register_strategy {α : Type} (strategies : List (String × α)) (test_type : String)
    (strategy : α) : List (String × α) :=
  dictSet strategies test_type strategy

/-- `TestExecutionFactory.get_strategy`: `.get` then `if not strategy:
raise`.  Strategy objects are class instances and therefore always
truthy, so the lookup miss is the only failing case. -/
def get_strategy {α : Type} (strategies : List (String × α)) (test_type : String) :
    Except PyErr α :=
  match lookupKey test_type strategies with
  | some s => .ok s
  | Option.none => .error (.valueError ("No execution strategy found for test type: " ++ test_type))

end TestExecutionFactory

namespace RecoveryExecutionStrategy

/-- `RecoveryExecutionStrategy.execute`: calls the test's `run` with
only the target name and the stage list — no keyword arguments. -/
def execute (run : String → List Stage → List (String × Value) →
      Except PyErr (List (String × Value)))
    (app_name : String) (stages : List Stage) : Except PyErr (List (String × Value)) :=
  run app_name stages []

end RecoveryExecutionStrategy

/-! ## Association-list lemmas -/

lemma lookupKey_replaceKey_ne {α : Type} (d : List (String × α)) (k n : String) (v : α)
    (hne : n ≠ k) :
    lookupKey n (replaceKey d k v) = lookupKey n d := by
  induction d with
  | nil => rfl
  | cons p rest ih =>
    obtain ⟨k2, v2⟩ := p
    by_cases hk2 : k2 = k
    · rw [replaceKey, if_pos hk2, lookupKey, if_neg (fun h => hne h.symm),
        lookupKey, hk2, if_neg (fun h => hne h.symm), ih]
    · by_cases hk2n : k2 = n
      · rw [replaceKey, if_neg hk2, lookupKey, if_pos hk2n, lookupKey, if_pos hk2n]
      · rw [replaceKey, if_neg hk2, lookupKey, if_neg hk2n, lookupKey, if_neg hk2n, ih]

lemma lookupKey_replaceKey_self {α : Type} (d : List (String × α)) (k : String) (v : α)
    (hk : hasKey k d = true) :
    lookupKey k (replaceKey d k v) = some v := by
  induction d with
  | nil => simp [hasKey, lookupKey] at hk
  | cons p rest ih =>
    obtain ⟨k2, v2⟩ := p
    by_cases hk2 : k2 = k
    · rw [replaceKey, if_pos hk2, lookupKey, if_pos rfl]
    · rw [hasKey, lookupKey, if_neg hk2] at hk
      rw [replaceKey, if_neg hk2, lookupKey, if_neg hk2]
      exact ih hk

lemma lookupKey_append_single_ne {α : Type} (d : List (String × α)) (k n : String) (v : α)
    (hne : n ≠ k) :
    lookupKey n (d ++ [(k, v)]) = lookupKey n d := by
  induction d with
  | nil =>
    have hkn : ¬ (k = n) := fun h => hne h.symm
    simp [lookupKey, hkn]
  | cons p rest ih =>
    obtain ⟨k2, v2⟩ := p
    by_cases hk2 : k2 = n
    · rw [List.cons_append, lookupKey, if_pos hk2, lookupKey, if_pos hk2]
    · rw [List.cons_append, lookupKey, if_neg hk2, lookupKey, if_neg hk2, ih]

lemma lookupKey_append_single_self {α : Type} (d : List (String × α)) (k : String) (v : α)
    (hk : hasKey k d = false) :
    lookupKey k (d ++ [(k, v)]) = some v := by
  induction d with
  | nil => simp [lookupKey]
  | cons p rest ih =>
    obtain ⟨k2, v2⟩ := p
    rw [hasKey, lookupKey] at hk
    by_cases hk2 : k2 = k
    · rw [if_pos hk2] at hk; simp at hk
    · rw [if_neg hk2] at hk
      rw [List.cons_append, lookupKey, if_neg hk2]
      exact ih hk

lemma lookupKey_dictSet_self {α : Type} (d : List (String × α)) (k : String) (v : α) :
    lookupKey k (dictSet d k v) = some v := by
  unfold dictSet
  by_cases hk : hasKey k d
  · rw [if_pos hk]; exact lookupKey_replaceKey_self d k v hk
  · rw [if_neg hk]; exact lookupKey_append_single_self d k v (by simpa using hk)

lemma hasKey_dictSet_of_ne {α : Type} (d : List (String × α)) (k n : String) (v : α)
    (hne : n ≠ k) (hn : hasKey n d = false) : hasKey n (dictSet d k v) = false := by
  unfold dictSet
  by_cases hk : hasKey k d
  · rw [if_pos hk]
    unfold hasKey at hn ⊢
    rw [lookupKey_replaceKey_ne d k n v hne]
    exact hn
  · rw [if_neg hk]
    unfold hasKey at hn ⊢
    rw [lookupKey_append_single_ne d k n v hne]
    exact hn

lemma keys_dictSet_of_not_has {α : Type} (d : List (String × α)) (k : String) (v : α)
    (hk : hasKey k d = false) :
    (dictSet d k v).map Prod.fst = d.map Prod.fst ++ [k] := by
  unfold dictSet
  rw [if_neg (by simp [hk])]
  simp

lemma mem_keys_of_hasKey {α : Type} (d : List (String × α)) (k : String)
    (hk : hasKey k d = true) : k ∈ d.map Prod.fst := by
  induction d with
  | nil => simp [hasKey, lookupKey] at hk
  | cons p rest ih =>
    obtain ⟨k2, v2⟩ := p
    rw [hasKey, lookupKey] at hk
    by_cases hk2 : k2 = k
    · simp [hk2]
    · rw [if_neg hk2] at hk
      simp [ih hk]

lemma keys_replaceKey_mem {α : Type} (d : List (String × α)) (k n : String) (v : α)
    (hn : n ∈ d.map Prod.fst) :
    n ∈ (replaceKey d k v).map Prod.fst := by
  induction d with
  | nil => simp at hn
  | cons p rest ih =>
    obtain ⟨k2, v2⟩ := p
    simp only [List.map_cons, List.mem_cons] at hn
    rcases hn with hn | hn
    · by_cases hk2 : k2 = k
      · rw [replaceKey, if_pos hk2]
        simp [hn.trans hk2]
      · rw [replaceKey, if_neg hk2]
        simp [hn.symm]
    · by_cases hk2 : k2 = k
      · rw [replaceKey, if_pos hk2]; simp [ih hn]
      · rw [replaceKey, if_neg hk2]; simp [ih hn]

lemma mem_keys_dictSet_self {α : Type} (d : List (String × α)) (k : String) (v : α) :
    k ∈ (dictSet d k v).map Prod.fst := by
  unfold dictSet
  by_cases hk : hasKey k d
  · rw [if_pos hk]
    exact keys_replaceKey_mem d k k v (mem_keys_of_hasKey d k hk)
  · rw [if_neg hk]; simp

lemma mem_keys_dictSet_of_mem {α : Type} (d : List (String × α)) (k n : String) (v : α)
    (hn : n ∈ d.map Prod.fst) : n ∈ (dictSet d k v).map Prod.fst := by
  unfold dictSet
  by_cases hk : hasKey k d
  · rw [if_pos hk]
    exact keys_replaceKey_mem d k n v hn
  · rw [if_neg hk]
    simp [hn]

/-! ## Stage-loop lemmas -/

lemma runStages_keys (bindArg : List (String × Value) → String → Value) :
    ∀ (stages : List Stage) (acc m : List (String × Value)),
      (stages.map Stage.name).Nodup →
      (∀ n ∈ stages.map Stage.name, hasKey n acc = false) →
      runStages bindArg stages acc = .ok m →
      m.map Prod.fst = acc.map Prod.fst ++ stages.map Stage.name := by
  intro stages
  induction stages with
  | nil =>
    intro acc m _ _ hrun
    simp only [runStages] at hrun
    injection hrun with h
    subst h
    simp
  | cons s rest ih =>
    intro acc m hnd hdisj hrun
    simp only [List.map_cons, List.nodup_cons] at hnd
    simp only [runStages] at hrun
    cases hex : Stage.execute s (bindArg acc s.name) with
    | error e =>
      rw [hex] at hrun
      cases hrun
    | ok v =>
      rw [hex] at hrun
      have hnot : hasKey s.name acc = false := hdisj s.name (by simp)
      have hkeys := keys_dictSet_of_not_has acc s.name v hnot
      have hdisj2 : ∀ n ∈ rest.map Stage.name, hasKey n (dictSet acc s.name v) = false := by
        intro n hn
        have hne : n ≠ s.name := fun h => hnd.1 (h ▸ hn)
        exact hasKey_dictSet_of_ne acc s.name n v hne (hdisj n (by simp [hn]))
      have hres := ih (dictSet acc s.name v) m hnd.2 hdisj2 hrun
      rw [hres, hkeys]
      simp

lemma runStages_complete_or_error (bindArg : List (String × Value) → String → Value) :
    ∀ (stages : List Stage) (acc : List (String × Value)),
      (∃ m, runStages bindArg stages acc = .ok m ∧
        (∀ n ∈ acc.map Prod.fst, n ∈ m.map Prod.fst) ∧
        (∀ s ∈ stages, s.name ∈ m.map Prod.fst)) ∨
      (∃ e, runStages bindArg stages acc = .error e ∧
        ∃ s ∈ stages, ∃ arg, s.action arg = .error e) := by
  intro stages
  induction stages with
  | nil =>
    intro acc
    exact Or.inl ⟨acc, rfl, fun n hn => hn, by simp⟩
  | cons s rest ih =>
    intro acc
    cases hex : Stage.execute s (bindArg acc s.name) with
    | error e =>
      refine Or.inr ⟨e, ?_, s, by simp, bindArg acc s.name, hex⟩
      simp only [runStages, hex]
    | ok v =>
      rcases ih (dictSet acc s.name v) with ⟨m, hrun, hacc, hall⟩ | ⟨e, hrun, s2, hs2, arg, harg⟩
      · refine Or.inl ⟨m, ?_, ?_, ?_⟩
        · simp only [runStages, hex]; exact hrun
        · intro n hn
          exact hacc n (mem_keys_dictSet_of_mem acc s.name n v hn)
        · intro s2 hs2
          rcases List.mem_cons.mp hs2 with h | h
          · subst h
            exact hacc s2.name (mem_keys_dictSet_self acc s2.name v)
          · exact hall s2 h
      · refine Or.inr ⟨e, ?_, s2, List.mem_cons_of_mem s hs2, arg, harg⟩
        simp only [runStages, hex]; exact hrun

/-! ## Claim C2 -/

/-- C2: for every test kind (Replay, Performance, Recovery) and every
stage sequence with distinct stage names, a successful `run` returns a
result map whose keys are exactly the names of the stages of the
sequence, in execution order; the map starts empty and each iteration
appends the current stage's result. -/
theorem runOf_keys_eq_stage_names (k : TestKind) (app_name log_path : String)
    (batch_data : Value) (stages : List Stage) (kwargs m : List (String × Value))
    (hnodup : (stages.map Stage.name).Nodup)
    (hrun : runOf k app_name stages log_path batch_data kwargs = .ok m) :
    m.map Prod.fst = stages.map Stage.name := by
  have hdisj : ∀ n ∈ stages.map Stage.name, hasKey n ([] : List (String × Value)) = false :=
    fun n _ => rfl
  cases k with
  | replay =>
    simpa using runStages_keys (replayArg app_name log_path batch_data) stages [] m hnodup hdisj hrun
  | performance =>
    simpa using runStages_keys (performanceArg app_name batch_data) stages [] m hnodup hdisj hrun
  | recovery =>
    simpa using runStages_keys (recoveryArg app_name) stages [] m hnodup hdisj hrun

/-- C2 witness: the Replay run on [connect, get_log, inject_data] with
target `"MyApp"` yields a map keyed `connect, get_log, inject_data`, in
that order. -/
theorem runOf_keys_witness :
    (get_replay_stages.map Stage.name).Nodup ∧
    ([("connect", Value.bool true), ("get_log", Value.str "dummy_log.txt"),
      ("inject_data", Value.dict [("status", Value.str "success")])].map Prod.fst
        = get_replay_stages.map Stage.name) :=
  ⟨by decide,
   runOf_keys_eq_stage_names .replay "MyApp" "app.log"
     (Value.dict [("data", Value.list [Value.num 1, Value.num 2, Value.num 3])])
     get_replay_stages []
     [("connect", Value.bool true), ("get_log", Value.str "dummy_log.txt"),
      ("inject_data", Value.dict [("status", Value.str "success")])]
     (by decide) rfl⟩

/-! ## Claim C3 -/

/-- C3: the Stage wrapper is pure delegation (it catches nothing), and
every `run` either returns a result map containing an entry for every
stage of the sequence, or returns nothing and propagates, unmodified,
an error produced by one of the stage actions. -/
theorem run_error_propagation (k : TestKind) (app_name log_path : String)
    (batch_data : Value) (stages : List Stage) (kwargs : List (String × Value)) :
    (∀ (s : Stage) (arg : Value), Stage.execute s arg = s.action arg) ∧
    ((∃ m, runOf k app_name stages log_path batch_data kwargs = .ok m ∧
        ∀ s ∈ stages, s.name ∈ m.map Prod.fst) ∨
      (∃ e, runOf k app_name stages log_path batch_data kwargs = .error e ∧
        ∃ s ∈ stages, ∃ arg, s.action arg = .error e)) := by
  refine ⟨fun s arg => rfl, ?_⟩
  cases k with
  | replay =>
    rcases runStages_complete_or_error (replayArg app_name log_path batch_data) stages []
      with ⟨m, h1, _, h3⟩ | h
    · exact Or.inl ⟨m, h1, h3⟩
    · exact Or.inr h
  | performance =>
    rcases runStages_complete_or_error (performanceArg app_name batch_data) stages []
      with ⟨m, h1, _, h3⟩ | h
    · exact Or.inl ⟨m, h1, h3⟩
    · exact Or.inr h
  | recovery =>
    rcases runStages_complete_or_error (recoveryArg app_name) stages []
      with ⟨m, h1, _, h3⟩ | h
    · exact Or.inl ⟨m, h1, h3⟩
    · exact Or.inr h

/-! ## Claim C10 -/

/-- C10: in every Recovery run, a stage named `read_log` receives the
hard-coded `"dummy_recovery_log.txt"` as its argument — the binding
rule maps `read_log` to that constant irrespective of the target name
and of the accumulated results, `RecoveryTest.run` ignores its keyword
arguments entirely, and the recovery execution strategy passes no
keyword arguments through which a caller could override the path. -/
theorem recovery_read_log_arg_fixed :
    (∀ (app_name : String) (results : List (String × Value)),
        recoveryArg app_name results "read_log" = Value.str "dummy_recovery_log.txt") ∧
    (∀ (app_name : String) (stages : List Stage) (kw1 kw2 : List (String × Value)),
        RecoveryTest.run app_name stages kw1 = RecoveryTest.run app_name stages kw2) ∧
    (∀ (app_name : String) (stages : List Stage),
        RecoveryExecutionStrategy.execute RecoveryTest.run app_name stages
          = RecoveryTest.run app_name stages []) :=
  ⟨fun _ _ => rfl, fun _ _ _ _ => rfl, fun _ _ => rfl⟩

/-! ## Claim C7 -/

lemma unregister_absent :
    ∀ (registry : List (String × TestClass)) (t : String),
      hasKey t registry = false → TestFactory.unregister registry t = registry := by
  intro registry t
  induction registry with
  | nil => intro _; rfl
  | cons p rest ih =>
    intro h
    obtain ⟨k2, v2⟩ := p
    rw [hasKey, lookupKey] at h
    by_cases hk2 : k2 = t
    · rw [if_pos hk2] at h; simp at h
    · rw [if_neg hk2] at h
      rw [TestFactory.unregister, if_neg hk2, ih h]

/-- C7 counterexample: the claim "register fails with DuplicateKind
whenever kind_name is already registered" is false as stated — when the
name is already registered AND the implementation is invalid, the
capability check runs first and the call fails with the
InvalidCapability error instead. -/
theorem register_duplicate_counterexample :
    hasKey "replay" [("replay", TestClass.mk "ReplayTest" true)] = true ∧
    TestFactory.register [("replay", TestClass.mk "ReplayTest" true)] "replay"
        (TestClass.mk "NotATest" false)
      ≠ .error (.valueError "Test type replay is already registered") := by
  exact ⟨rfl, by decide⟩

/-- C7 (amended): `register` fails with the InvalidCapability error
whenever the implementation does not satisfy the run capability (this
check runs first); for a valid implementation it fails with the
DuplicateKind error whenever the name is already registered and
otherwise appends the registration; `unregister` on an absent name is a
no-op that returns no error and leaves the registry unchanged. -/
theorem register_validation_precedence (registry : List (String × TestClass))
    (test_type : String) (test_class : TestClass) :
    (test_class.inheritsTest = false →
      TestFactory.register registry test_type test_class
        = .error (.valueError ("Class " ++ test_class.pyName ++ " must inherit from Test"))) ∧
    (test_class.inheritsTest = true → hasKey test_type registry = true →
      TestFactory.register registry test_type test_class
        = .error (.valueError ("Test type " ++ test_type ++ " is already registered"))) ∧
    (test_class.inheritsTest = true → hasKey test_type registry = false →
      TestFactory.register registry test_type test_class
        = .ok (registry ++ [(test_type, test_class)])) ∧
    (hasKey test_type registry = false →
      TestFactory.unregister registry test_type = registry) := by
  refine ⟨?_, ?_, ?_, fun h => unregister_absent registry test_type h⟩
  · intro h; simp [TestFactory.register, h]
  · intro h1 h2; simp [TestFactory.register, h1, h2]
  · intro h1 h2; simp [TestFactory.register, h1, h2]

/-- C7 witness: a valid duplicate registration fails with the
DuplicateKind error, and unregistering an absent name changes
nothing. -/
theorem register_validation_witness :
    TestFactory.register [("replay", TestClass.mk "ReplayTest" true)] "replay"
        (TestClass.mk "PerformanceTest" true)
      = .error (.valueError "Test type replay is already registered") ∧
    TestFactory.unregister [("replay", TestClass.mk "ReplayTest" true)] "performance"
      = [("replay", TestClass.mk "ReplayTest" true)] :=
  ⟨(register_validation_precedence [("replay", TestClass.mk "ReplayTest" true)] "replay"
      (TestClass.mk "PerformanceTest" true)).2.1 rfl rfl,
   (register_validation_precedence [("replay", TestClass.mk "ReplayTest" true)] "performance"
      (TestClass.mk "PerformanceTest" true)).2.2.2 rfl⟩

/-! ## Claim C8 -/

/-- C8: the Execution-Strategy Registry overwrites silently — after two
registrations under one name, `get_strategy` returns the second
strategy; `get_strategy` fails with the UnknownStrategy error exactly
when the name has never been registered; and, in contrast, the Test
Registry rejects a duplicate of a validly registered name with the
DuplicateKind error. -/
theorem strategy_registry_overwrites {α : Type} (strategies : List (String × α))
    (test_type : String) (s1 s2 : α) (test_registry : List (String × TestClass))
    (test_class : TestClass) :
    TestExecutionFactory.get_strategy
        (TestExecutionFactory.register_strategy
          (TestExecutionFactory.register_strategy strategies test_type s1) test_type s2)
        test_type = .ok s2 ∧
    (TestExecutionFactory.get_strategy strategies test_type
        = .error (.valueError ("No execution strategy found for test type: " ++ test_type))
      ↔ lookupKey test_type strategies = Option.none) ∧
    (test_class.inheritsTest = true → hasKey test_type test_registry = true →
      TestFactory.register test_registry test_type test_class
        = .error (.valueError ("Test type " ++ test_type ++ " is already registered"))) := by
  refine ⟨?_, ?_, ?_⟩
  · unfold TestExecutionFactory.get_strategy TestExecutionFactory.register_strategy
    rw [lookupKey_dictSet_self]
  · cases hl : lookupKey test_type strategies with
    | none => simp [TestExecutionFactory.get_strategy, hl]
    | some s => simp [TestExecutionFactory.get_strategy, hl]
  · intro h1 h2; simp [TestFactory.register, h1, h2]

/-- C8 witness: concrete override and lookup-miss behaviour, plus the
contrasting Test-Registry rejection. -/
theorem strategy_registry_witness :
    TestExecutionFactory.get_strategy
        (TestExecutionFactory.register_strategy
          (TestExecutionFactory.register_strategy ([] : List (String × ℕ)) "recovery" 1)
          "recovery" 2) "recovery" = .ok 2 ∧
    (TestExecutionFactory.get_strategy ([] : List (String × ℕ)) "recovery"
        = .error (.valueError "No execution strategy found for test type: recovery")
      ↔ lookupKey "recovery" ([] : List (String × ℕ)) = Option.none) ∧
    TestFactory.register [("recovery", TestClass.mk "RecoveryTest" true)] "recovery"
        (TestClass.mk "RecoveryTest2" true)
      = .error (.valueError "Test type recovery is already registered") := by
  obtain ⟨h1, h2, h3⟩ := strategy_registry_overwrites ([] : List (String × ℕ)) "recovery" 1 2
    [("recovery", TestClass.mk "RecoveryTest" true)] (TestClass.mk "RecoveryTest2" true)
  exact ⟨h1, h2, h3 rfl rfl⟩

/-! ## Claim C1 -/

/-- C1: on a result map whose `send_batch` entry has no
`response_times` field while `read_log` supplies the data, the stage
succeeds with the metrics computed from `read_log`'s values and the
`response_times` output taken from `read_log` — yet reports
`source = "send_batch"`, because the returned `source` tests only key
presence (`"send_batch" if "send_batch" in results else "read_log"`)
and ignores which key actually supplied the data. -/
theorem calculate_metrics_source_mislabel :
    calculate_metrics_stage (fun _ => 0)
        [("send_batch", .dict [("status", .str "success")]),
         ("read_log", .dict [("response_times", .list [.num 1])])]
      = .ok (.dict
          [("metrics", .dict
              [("min", .num 1), ("max", .num 1), ("median", .num 1), ("std_dev", .num 0),
               ("p90", .num 1), ("p95", .num 1), ("p99", .num 1)]),
           ("status", .str "success"),
           ("sample_size", .num 1),
           ("source", .str "send_batch"),
           ("response_times", .list [.num 1])]) ∧
    lookupKey "response_times" [("status", Value.str "success")] = Option.none := by
  exact ⟨by with_unfolding_all rfl, rfl⟩

/-! ## Claim C9 -/

/-- C9: `create_graphs_stage` depends only on the `calculate_metrics`
entry of the result map (it never reads another stage's entry nor
recomputes), and whenever that entry is absent, or its
`response_times` is absent or empty/falsy, the stage fails with the
missing-data `ValueError` for every grapher — i.e. before the graphing
collaborator is ever invoked, so no output file is produced. -/
theorem create_graphs_reads_only_metrics_entry (grapher : ResponseTimeGrapher)
    (results r1 r2 : List (String × Value)) :
    (graphInputMissing results = true →
      create_graphs_stage grapher results
        = .error (.valueError "No response times found in metrics results")) ∧
    (lookupKey "calculate_metrics" r1 = lookupKey "calculate_metrics" r2 →
      create_graphs_stage grapher r1 = create_graphs_stage grapher r2) := by
  constructor
  · intro h
    cases hl : lookupKey "calculate_metrics" results with
    | none => simp [create_graphs_stage, hl, vGet, vGetD, lookupKey, truthy]
    | some v =>
      cases v with
      | dict d =>
        cases hrt : lookupKey "response_times" d with
        | none => simp [create_graphs_stage, hl, hrt, vGet, vGetD, truthy]
        | some rt =>
          have htr : truthy rt = false := by
            have h2 := h
            simp [graphInputMissing, hl, hrt] at h2
            exact h2
          simp [create_graphs_stage, hl, hrt, vGet, vGetD, htr]
      | none => simp [graphInputMissing, hl] at h
      | bool b => simp [graphInputMissing, hl] at h
      | num q => simp [graphInputMissing, hl] at h
      | str s => simp [graphInputMissing, hl] at h
      | list xs => simp [graphInputMissing, hl] at h
  · intro h
    unfold create_graphs_stage
    rw [h]

/-- C9 witness: on the empty result map (and a concrete grapher) the
stage fails with the missing-data error, and two maps agreeing on the
`calculate_metrics` entry produce identical outcomes. -/
theorem create_graphs_missing_witness :
    graphInputMissing [] = true ∧
    create_graphs_stage ⟨fun _ _ => .ok "scatter.png", fun _ _ => .ok "analysis.png"⟩ []
      = .error (.valueError "No response times found in metrics results") ∧
    lookupKey "calculate_metrics" [("connect", Value.bool true)]
      = lookupKey "calculate_metrics" ([] : List (String × Value)) ∧
    create_graphs_stage ⟨fun _ _ => .ok "scatter.png", fun _ _ => .ok "analysis.png"⟩
        [("connect", Value.bool true)]
      = create_graphs_stage ⟨fun _ _ => .ok "scatter.png", fun _ _ => .ok "analysis.png"⟩ [] := by
  refine ⟨rfl, ?_, by with_unfolding_all rfl, ?_⟩
  · exact (create_graphs_reads_only_metrics_entry
      ⟨fun _ _ => .ok "scatter.png", fun _ _ => .ok "analysis.png"⟩ [] [] []).1 rfl
  · exact (create_graphs_reads_only_metrics_entry
      ⟨fun _ _ => .ok "scatter.png", fun _ _ => .ok "analysis.png"⟩ []
      [("connect", Value.bool true)] []).2 (by with_unfolding_all rfl)

/-! ## Metrics-stage evaluation lemmas -/

lemma toFloatList_map_num (xs : List ℚ) : toFloatList (xs.map Value.num) = some xs := by
  induction xs with
  | nil => rfl
  | cons x rest ih => simp [toFloatList, ih]

lemma toFloatArray_map_num (xs : List ℚ) :
    toFloatArray (Value.list (xs.map Value.num)) = some xs := by
  simp [toFloatArray, toFloatList_map_num xs]

lemma truthy_list_map_num (xs : List ℚ) (h : xs ≠ []) :
    truthy (Value.list (xs.map Value.num)) = true := by
  cases xs with
  | nil => exact absurd rfl h
  | cons x rest => simp [truthy]

lemma all_isNum_shape :
    ∀ (ys : List Value), ys.all isNum = true → ∃ xs : List ℚ, ys = xs.map Value.num := by
  intro ys
  induction ys with
  | nil => intro _; exact ⟨[], rfl⟩
  | cons v rest ih =>
    intro h
    simp only [List.all_cons, Bool.and_eq_true] at h
    obtain ⟨hv, hrest⟩ := h
    obtain ⟨xs, hxs⟩ := ih hrest
    cases v with
    | num q => exact ⟨q :: xs, by simp [hxs]⟩
    | none => simp [isNum] at hv
    | bool b => simp [isNum] at hv
    | str s => simp [isNum] at hv
    | list l => simp [isNum] at hv
    | dict d => simp [isNum] at hv

lemma tryBlock_num_list (npStd : List ℚ → ℚ) (results : List (String × Value)) (xs : List ℚ)
    (hne : xs ≠ []) :
    metricsTryBlock npStd results (Value.list (xs.map Value.num))
      = .ok (.dict
          [("metrics", .dict ((MetricsCalculator.format_metrics (rawMetrics npStd xs)).map
              (fun p => (p.1, Value.num p.2)))),
           ("status", .str "success"),
           ("sample_size", .num (xs.length : ℚ)),
           ("source", .str (if hasKey "send_batch" results then "send_batch" else "read_log")),
           ("response_times", Value.list (xs.map Value.num))]) := by
  have htr : truthy (Value.list (xs.map Value.num)) = true := truthy_list_map_num xs hne
  have hemp : xs.isEmpty = false := by
    cases xs with
    | nil => exact absurd rfl hne
    | cons x rest => rfl
  simp [metricsTryBlock, MetricsCalculator.process_metricsV,
    MetricsCalculator.calculate_metricsV, htr, toFloatArray_map_num,
    MetricsCalculator.calculate_metrics, hemp, pyLen, Except.map]

lemma extract_step_supplies (results : List (String × Value)) (k : String) (rest : List String)
    (d : List (String × Value)) (xs : List ℚ)
    (hl : lookupKey k results = some (Value.dict d))
    (hrt : lookupKey "response_times" d = some (Value.list (xs.map Value.num)))
    (hne : xs ≠ []) :
    extractResponseTimes (k :: rest) results = .ok (some (Value.list (xs.map Value.num))) := by
  unfold extractResponseTimes
  rw [hl]
  simp [vGet, hrt, truthy_list_map_num xs hne]

lemma extract_step_not_supplies (results : List (String × Value)) (k : String)
    (rest : List String)
    (h : lookupKey k results = Option.none ∨
      ∃ d, lookupKey k results = some (Value.dict d) ∧
        truthy ((lookupKey "response_times" d).getD Value.none) = false) :
    extractResponseTimes (k :: rest) results = extractResponseTimes rest results := by
  have hgen : ∀ t : Except PyErr (Option Value),
      extractResponseTimes rest results = t →
      extractResponseTimes (k :: rest) results = t := by
    intro t ht
    unfold extractResponseTimes
    rw [ht]
    rcases h with h | ⟨d, hl, htr⟩
    · rw [h]
    · rw [hl]; simp [vGet, htr]
  exact hgen _ rfl

lemma supplies_true_shape (results : List (String × Value)) (k : String)
    (hwf : wfEntry (lookupKey k results) = true)
    (hs : suppliesResponseTimes results k = true) :
    ∃ d xs, lookupKey k results = some (Value.dict d) ∧
      lookupKey "response_times" d = some (Value.list (xs.map Value.num)) ∧ xs ≠ [] := by
  unfold suppliesResponseTimes at hs
  cases hl : lookupKey k results with
  | none => rw [hl] at hs; cases hs
  | some v =>
    rw [hl] at hs
    rw [hl] at hwf
    cases v with
    | dict d =>
      have hs2 : truthy ((lookupKey "response_times" d).getD Value.none) = true := hs
      have hwf2 : (match lookupKey "response_times" d with
          | Option.none => true
          | some (Value.list ys) => ys.all isNum
          | some _ => false) = true := hwf
      cases hrt : lookupKey "response_times" d with
      | none => rw [hrt] at hs2; cases hs2
      | some rt =>
        rw [hrt] at hs2 hwf2
        cases rt with
        | list ys =>
          obtain ⟨xs, hxs⟩ := all_isNum_shape ys hwf2
          subst hxs
          refine ⟨d, xs, rfl, hrt, ?_⟩
          intro hnil
          subst hnil
          simp [truthy] at hs2
        | none => cases hwf2
        | bool b => cases hwf2
        | num q => cases hwf2
        | str s => cases hwf2
        | dict d2 => cases hwf2
    | none => cases hs
    | bool b => cases hs
    | num q => cases hs
    | str s => cases hs
    | list l => cases hs

lemma not_supplies_shape (results : List (String × Value)) (k : String)
    (hwf : wfEntry (lookupKey k results) = true)
    (hns : suppliesResponseTimes results k = false) :
    lookupKey k results = Option.none ∨
    ∃ d, lookupKey k results = some (Value.dict d) ∧
      truthy ((lookupKey "response_times" d).getD Value.none) = false := by
  unfold suppliesResponseTimes at hns
  cases hl : lookupKey k results with
  | none => exact Or.inl rfl
  | some v =>
    rw [hl] at hns
    rw [hl] at hwf
    cases v with
    | dict d => exact Or.inr ⟨d, rfl, hns⟩
    | none => cases hwf
    | bool b => cases hwf
    | num q => cases hwf
    | str s => cases hwf
    | list l => cases hwf

lemma stage_eq_of_extract_num_list (npStd : List ℚ → ℚ) (results : List (String × Value))
    (xs : List ℚ)
    (hx : extractResponseTimes ["send_batch", "read_log"] results
      = .ok (some (Value.list (xs.map Value.num))))
    (hne : xs ≠ []) :
    calculate_metrics_stage npStd results
      = .ok (.dict
          [("metrics", .dict ((MetricsCalculator.format_metrics (rawMetrics npStd xs)).map
              (fun p => (p.1, Value.num p.2)))),
           ("status", .str "success"),
           ("sample_size", .num (xs.length : ℚ)),
           ("source", .str (if hasKey "send_batch" results then "send_batch" else "read_log")),
           ("response_times", Value.list (xs.map Value.num))]) := by
  unfold calculate_metrics_stage
  rw [hx]
  show (match metricsTryBlock npStd results (Value.list (xs.map Value.num)) with
      | Except.error e =>
        Except.ok (Value.dict [("status", Value.str "error"), ("error", Value.str (errStr e))])
      | Except.ok v => Except.ok v) = _
  rw [tryBlock_num_list npStd results xs hne]

lemma stage_eq_missing_of_extract_none (npStd : List ℚ → ℚ) (results : List (String × Value))
    (hx : extractResponseTimes ["send_batch", "read_log"] results = .ok Option.none) :
    calculate_metrics_stage npStd results
      = .error (.valueError "No response times found in results") := by
  unfold calculate_metrics_stage
  rw [hx]

/-! ## Claim C5 -/

/-- C5: for every result map satisfying the stage-output contract at
the two examined keys, `calculate_metrics_stage` fails with the
missing-data `ValueError` exactly when neither `send_batch` nor
`read_log` supplies a (non-empty) `response_times` sequence — the
empty map included — and it returns a success-status result exactly
when one of those keys does supply one. -/
theorem missing_data_iff_no_source (npStd : List ℚ → ℚ) (results : List (String × Value))
    (hwf : resultMapWF results = true) :
    (calculate_metrics_stage npStd results
        = .error (.valueError "No response times found in results")
      ↔ (suppliesResponseTimes results "send_batch" = false ∧
         suppliesResponseTimes results "read_log" = false)) ∧
    ((∃ o, calculate_metrics_stage npStd results = .ok o ∧
        statusOf o = some (.str "success"))
      ↔ (suppliesResponseTimes results "send_batch" = true ∨
         suppliesResponseTimes results "read_log" = true)) := by
  have hwf12 : wfEntry (lookupKey "send_batch" results) = true ∧
      wfEntry (lookupKey "read_log" results) = true := by
    unfold resultMapWF at hwf
    simp only [Bool.and_eq_true] at hwf
    exact hwf
  by_cases hsb : suppliesResponseTimes results "send_batch" = true
  · obtain ⟨d, xs, hl, hrt, hne⟩ := supplies_true_shape results "send_batch" hwf12.1 hsb
    have hext : extractResponseTimes ["send_batch", "read_log"] results
        = .ok (some (Value.list (xs.map Value.num))) :=
      extract_step_supplies results "send_batch" ["read_log"] d xs hl hrt hne
    have hstage := stage_eq_of_extract_num_list npStd results xs hext hne
    constructor
    · constructor
      · intro h
        rw [hstage] at h
        cases h
      · intro hcon
        rw [hsb] at hcon
        cases hcon.1
    · constructor
      · intro _
        exact Or.inl hsb
      · intro _
        exact ⟨_, hstage, rfl⟩
  · have hsbf : suppliesResponseTimes results "send_batch" = false := by
      cases hb : suppliesResponseTimes results "send_batch" with
      | true => exact absurd hb hsb
      | false => rfl
    have hskip : extractResponseTimes ["send_batch", "read_log"] results
        = extractResponseTimes ["read_log"] results :=
      extract_step_not_supplies results "send_batch" ["read_log"]
        (not_supplies_shape results "send_batch" hwf12.1 hsbf)
    by_cases hrl : suppliesResponseTimes results "read_log" = true
    · obtain ⟨d, xs, hl, hrt, hne⟩ := supplies_true_shape results "read_log" hwf12.2 hrl
      have hext : extractResponseTimes ["send_batch", "read_log"] results
          = .ok (some (Value.list (xs.map Value.num))) :=
        hskip.trans (extract_step_supplies results "read_log" [] d xs hl hrt hne)
      have hstage := stage_eq_of_extract_num_list npStd results xs hext hne
      constructor
      · constructor
        · intro h
          rw [hstage] at h
          cases h
        · intro hcon
          rw [hrl] at hcon
          cases hcon.2
      · constructor
        · intro _
          exact Or.inr hrl
        · intro _
          exact ⟨_, hstage, rfl⟩
    · have hrlf : suppliesResponseTimes results "read_log" = false := by
        cases hb : suppliesResponseTimes results "read_log" with
        | true => exact absurd hb hrl
        | false => rfl
      have hext : extractResponseTimes ["send_batch", "read_log"] results
          = .ok Option.none :=
        (hskip.trans (extract_step_not_supplies results "read_log" []
          (not_supplies_shape results "read_log" hwf12.2 hrlf)))
      have hstage := stage_eq_missing_of_extract_none npStd results hext
      constructor
      · constructor
        · intro _
          exact ⟨hsbf, hrlf⟩
        · intro _
          exact hstage
      · constructor
        · intro hex
          obtain ⟨o, ho, _⟩ := hex
          rw [hstage] at ho
          cases ho
        · intro h
          rcases h with h | h
          · rw [hsbf] at h; cases h
          · rw [hrlf] at h; cases h

/-- C5 witness: the empty result map satisfies the contract, supplies
nothing, and fails with the missing-data error. -/
theorem missing_data_witness :
    resultMapWF [] = true ∧
    ((calculate_metrics_stage (fun _ => 0) []
        = .error (.valueError "No response times found in results")
      ↔ (suppliesResponseTimes [] "send_batch" = false ∧
         suppliesResponseTimes [] "read_log" = false)) ∧
    ((∃ o, calculate_metrics_stage (fun _ => 0) [] = .ok o ∧
        statusOf o = some (.str "success"))
      ↔ (suppliesResponseTimes [] "send_batch" = true ∨
         suppliesResponseTimes [] "read_log" = true))) :=
  ⟨rfl, missing_data_iff_no_source (fun _ => 0) [] rfl⟩

/-! ## Claim C6 -/

/-- C6: whenever the extraction loop finds a non-empty numeric
`response_times` sequence, the stage succeeds and reports each metric
(min, max, median, std_dev, p90, p95, p99) rounded to 2 decimal places
via `round2`, while the value placed under the output's
`response_times` key is the extracted sequence itself, un-rounded and
unchanged element for element. -/
theorem metrics_rounded_and_passthrough (npStd : List ℚ → ℚ)
    (results : List (String × Value)) (xs : List ℚ)
    (hx : extractResponseTimes ["send_batch", "read_log"] results
      = .ok (some (Value.list (xs.map Value.num))))
    (hne : xs ≠ []) :
    calculate_metrics_stage npStd results
      = .ok (.dict
          [("metrics", .dict
              [("min", .num (round2 (rawMetrics npStd xs).min)),
               ("max", .num (round2 (rawMetrics npStd xs).max)),
               ("median", .num (round2 (rawMetrics npStd xs).median)),
               ("std_dev", .num (round2 (rawMetrics npStd xs).std_dev)),
               ("p90", .num (round2 (rawMetrics npStd xs).percentile_90)),
               ("p95", .num (round2 (rawMetrics npStd xs).percentile_95)),
               ("p99", .num (round2 (rawMetrics npStd xs).percentile_99))]),
           ("status", .str "success"),
           ("sample_size", .num (xs.length : ℚ)),
           ("source", .str (if hasKey "send_batch" results then "send_batch" else "read_log")),
           ("response_times", Value.list (xs.map Value.num))]) := by
  rw [stage_eq_of_extract_num_list npStd results xs hx hne]
  rfl

/-- C6 witness: on a concrete map whose `read_log` carries [1, 2], the
stage reports the rounded metrics and passes [1, 2] through
unchanged. -/
theorem metrics_rounded_witness :
    extractResponseTimes ["send_batch", "read_log"]
        [("read_log", Value.dict [("response_times", Value.list [Value.num 1, Value.num 2])])]
      = .ok (some (Value.list [Value.num 1, Value.num 2])) ∧
    calculate_metrics_stage (fun _ => 0)
        [("read_log", Value.dict [("response_times", Value.list [Value.num 1, Value.num 2])])]
      = .ok (.dict
          [("metrics", .dict
              [("min", .num 1), ("max", .num 2), ("median", .num (3/2)),
               ("std_dev", .num 0), ("p90", .num (19/10)), ("p95", .num (39/20)),
               ("p99", .num (199/100))]),
           ("status", .str "success"),
           ("sample_size", .num 2),
           ("source", .str "read_log"),
           ("response_times", Value.list [Value.num 1, Value.num 2])]) := by
  constructor
  · with_unfolding_all rfl
  · have h := metrics_rounded_and_passthrough (fun _ => 0)
      [("read_log", Value.dict [("response_times", Value.list [Value.num 1, Value.num 2])])]
      [1, 2] (by with_unfolding_all rfl) (by simp)
    rw [h]
    with_unfolding_all rfl

/-! ## Order lemmas for the numpy model -/

lemma npSort_sorted (data : List ℚ) : (npSort data).Sorted (· ≤ ·) :=
  List.sorted_insertionSort _ data

lemma npSort_perm (data : List ℚ) : (npSort data).Perm data :=
  List.perm_insertionSort _ data

lemma npSort_length (data : List ℚ) : (npSort data).length = data.length :=
  (npSort_perm data).length_eq

lemma npSort_mem {x : ℚ} {data : List ℚ} (h : x ∈ npSort data) : x ∈ data :=
  (npSort_perm data).mem_iff.mp h

lemma getD_mem {l : List ℚ} {i : ℕ} (h : i < l.length) : l.getD i 0 ∈ l := by
  rw [List.getD_eq_getElem l 0 h]
  exact List.getElem_mem h

lemma sorted_getD_le {l : List ℚ} (hs : l.Sorted (· ≤ ·)) {i j : ℕ} (hij : i ≤ j)
    (hj : j < l.length) : l.getD i 0 ≤ l.getD j 0 := by
  have hi : i < l.length := lt_of_le_of_lt hij hj
  rw [List.getD_eq_getElem l 0 hi, List.getD_eq_getElem l 0 hj]
  have h2 := List.Sorted.rel_get_of_le hs
    (show (⟨i, hi⟩ : Fin l.length) ≤ (⟨j, hj⟩ : Fin l.length) from hij)
  simpa [List.get_eq_getElem] using h2

lemma foldl_min_le_init (l : List ℚ) : ∀ (a : ℚ), l.foldl min a ≤ a := by
  induction l with
  | nil => intro a; exact le_refl a
  | cons b l ih => intro a; exact le_trans (ih (min a b)) (min_le_left a b)

lemma foldl_min_le_mem (x : ℚ) : ∀ (l : List ℚ), x ∈ l → ∀ (a : ℚ), l.foldl min a ≤ x := by
  intro l
  induction l with
  | nil => intro hx; cases hx
  | cons b l ih =>
    intro hx a
    rcases List.mem_cons.mp hx with h | h
    · subst h
      exact le_trans (foldl_min_le_init l (min a x)) (min_le_right a x)
    · exact ih h (min a b)

lemma npMin_le {data : List ℚ} {x : ℚ} (hx : x ∈ data) : npMin data ≤ x := by
  cases data with
  | nil => cases hx
  | cons a l =>
    rcases List.mem_cons.mp hx with h | h
    · subst h
      exact foldl_min_le_init l x
    · exact foldl_min_le_mem x l h a

lemma foldl_max_init_le (l : List ℚ) : ∀ (a : ℚ), a ≤ l.foldl max a := by
  induction l with
  | nil => intro a; exact le_refl a
  | cons b l ih => intro a; exact le_trans (le_max_left a b) (ih (max a b))

lemma foldl_max_mem_le (x : ℚ) : ∀ (l : List ℚ), x ∈ l → ∀ (a : ℚ), x ≤ l.foldl max a := by
  intro l
  induction l with
  | nil => intro hx; cases hx
  | cons b l ih =>
    intro hx a
    rcases List.mem_cons.mp hx with h | h
    · subst h
      exact le_trans (le_max_right a x) (foldl_max_init_le l (max a x))
    · exact ih h (max a b)

lemma le_npMax {data : List ℚ} {x : ℚ} (hx : x ∈ data) : x ≤ npMax data := by
  cases data with
  | nil => cases hx
  | cons a l =>
    rcases List.mem_cons.mp hx with h | h
    · subst h
      exact foldl_max_init_le l x
    · exact foldl_max_mem_le x l h a

lemma floor_toNat_cast (h : ℚ) (hh0 : 0 ≤ h) : (((⌊h⌋).toNat : ℕ) : ℚ) = ((⌊h⌋ : ℤ) : ℚ) := by
  have h0 : (0 : ℤ) ≤ ⌊h⌋ := Int.floor_nonneg.mpr hh0
  exact_mod_cast congrArg (fun z : ℤ => (z : ℚ)) (Int.toNat_of_nonneg h0)

lemma interp_frac_nonneg (h : ℚ) (hh0 : 0 ≤ h) : 0 ≤ h - (((⌊h⌋).toNat : ℕ) : ℚ) := by
  rw [floor_toNat_cast h hh0]
  have := Int.floor_le h
  linarith

lemma interp_frac_le_one (h : ℚ) (hh0 : 0 ≤ h) : h - (((⌊h⌋).toNat : ℕ) : ℚ) ≤ 1 := by
  rw [floor_toNat_cast h hh0]
  have := Int.lt_floor_add_one h
  linarith

lemma interp_index_lt (n : ℕ) (h : ℚ) (hn : 0 < n) (_hh0 : 0 ≤ h)
    (hhn : h ≤ (n : ℚ) - 1) : (⌊h⌋).toNat < n := by
  have h1 : (⌊h⌋ : ℤ) ≤ (n : ℤ) - 1 := by
    have hmono := Int.floor_le_floor hhn
    have h2 : ((n : ℚ) - 1) = (((n : ℤ) - 1 : ℤ) : ℚ) := by push_cast; ring
    rw [h2, Int.floor_intCast] at hmono
    exact hmono
  omega

lemma interpAt_bounds (s : List ℚ) (n : ℕ) (h : ℚ) (hs : s.Sorted (· ≤ ·))
    (hlen : s.length = n) (hn : 0 < n) (hh0 : 0 ≤ h) (hhn : h ≤ (n : ℚ) - 1) :
    ∃ u v : ℚ, u ∈ s ∧ v ∈ s ∧ u ≤ interpAt s n h ∧ interpAt s n h ≤ v := by
  have hiltn : (⌊h⌋).toNat < n := interp_index_lt n h hn hh0 hhn
  have hilt : (⌊h⌋).toNat < s.length := by rw [hlen]; exact hiltn
  have hjlt : min ((⌊h⌋).toNat + 1) (n - 1) < s.length := by rw [hlen]; omega
  have hij : (⌊h⌋).toNat ≤ min ((⌊h⌋).toNat + 1) (n - 1) := by omega
  have hf0 : 0 ≤ h - (((⌊h⌋).toNat : ℕ) : ℚ) := interp_frac_nonneg h hh0
  have hf1 : h - (((⌊h⌋).toNat : ℕ) : ℚ) ≤ 1 := interp_frac_le_one h hh0
  have hlohi : s.getD ((⌊h⌋).toNat) 0 ≤ s.getD (min ((⌊h⌋).toNat + 1) (n - 1)) 0 :=
    sorted_getD_le hs hij hjlt
  have key : interpAt s n h
      = s.getD ((⌊h⌋).toNat) 0
        + (h - (((⌊h⌋).toNat : ℕ) : ℚ))
          * (s.getD (min ((⌊h⌋).toNat + 1) (n - 1)) 0 - s.getD ((⌊h⌋).toNat) 0) := rfl
  refine ⟨s.getD ((⌊h⌋).toNat) 0, s.getD (min ((⌊h⌋).toNat + 1) (n - 1)) 0,
    getD_mem hilt, getD_mem hjlt, ?_, ?_⟩
  · rw [key]
    have hp := mul_nonneg hf0 (sub_nonneg.mpr hlohi)
    linarith
  · rw [key]
    have hp := mul_nonneg (by linarith : (0:ℚ) ≤ 1 - (h - (((⌊h⌋).toNat : ℕ) : ℚ)))
      (sub_nonneg.mpr hlohi)
    nlinarith

lemma interpAt_mono (s : List ℚ) (n : ℕ) (h1 h2 : ℚ) (hs : s.Sorted (· ≤ ·))
    (hlen : s.length = n) (hn : 0 < n) (h10 : 0 ≤ h1) (h12 : h1 ≤ h2)
    (h2n : h2 ≤ (n : ℚ) - 1) :
    interpAt s n h1 ≤ interpAt s n h2 := by
  have h20 : 0 ≤ h2 := le_trans h10 h12
  have h1n : h1 ≤ (n : ℚ) - 1 := le_trans h12 h2n
  have hi1n : (⌊h1⌋).toNat < n := interp_index_lt n h1 hn h10 h1n
  have hi2n : (⌊h2⌋).toNat < n := interp_index_lt n h2 hn h20 h2n
  have hfl12 : ⌊h1⌋ ≤ ⌊h2⌋ := Int.floor_le_floor h12
  have hi12 : (⌊h1⌋).toNat ≤ (⌊h2⌋).toNat := by omega
  have hf10 : 0 ≤ h1 - (((⌊h1⌋).toNat : ℕ) : ℚ) := interp_frac_nonneg h1 h10
  have hf11 : h1 - (((⌊h1⌋).toNat : ℕ) : ℚ) ≤ 1 := interp_frac_le_one h1 h10
  have hf20 : 0 ≤ h2 - (((⌊h2⌋).toNat : ℕ) : ℚ) := interp_frac_nonneg h2 h20
  have hi2lt : (⌊h2⌋).toNat < s.length := by rw [hlen]; exact hi2n
  have hj1lt : min ((⌊h1⌋).toNat + 1) (n - 1) < s.length := by rw [hlen]; omega
  have hj2lt : min ((⌊h2⌋).toNat + 1) (n - 1) < s.length := by rw [hlen]; omega
  have hlohi1 : s.getD ((⌊h1⌋).toNat) 0 ≤ s.getD (min ((⌊h1⌋).toNat + 1) (n - 1)) 0 :=
    sorted_getD_le hs (by omega) hj1lt
  have hlohi2 : s.getD ((⌊h2⌋).toNat) 0 ≤ s.getD (min ((⌊h2⌋).toNat + 1) (n - 1)) 0 :=
    sorted_getD_le hs (by omega) hj2lt
  have key1 : interpAt s n h1
      = s.getD ((⌊h1⌋).toNat) 0
        + (h1 - (((⌊h1⌋).toNat : ℕ) : ℚ))
          * (s.getD (min ((⌊h1⌋).toNat + 1) (n - 1)) 0 - s.getD ((⌊h1⌋).toNat) 0) := rfl
  have key2 : interpAt s n h2
      = s.getD ((⌊h2⌋).toNat) 0
        + (h2 - (((⌊h2⌋).toNat : ℕ) : ℚ))
          * (s.getD (min ((⌊h2⌋).toNat + 1) (n - 1)) 0 - s.getD ((⌊h2⌋).toNat) 0) := rfl
  rcases Nat.lt_or_ge ((⌊h1⌋).toNat) ((⌊h2⌋).toNat) with hlt | hge
  · have hhl : min ((⌊h1⌋).toNat + 1) (n - 1) ≤ (⌊h2⌋).toNat := by omega
    have hmid : s.getD (min ((⌊h1⌋).toNat + 1) (n - 1)) 0 ≤ s.getD ((⌊h2⌋).toNat) 0 :=
      sorted_getD_le hs hhl hi2lt
    rw [key1, key2]
    have hp1 := mul_nonneg (by linarith : (0:ℚ) ≤ 1 - (h1 - (((⌊h1⌋).toNat : ℕ) : ℚ)))
      (sub_nonneg.mpr hlohi1)
    have hp2 := mul_nonneg hf20 (sub_nonneg.mpr hlohi2)
    nlinarith
  · have heq : (⌊h1⌋).toNat = (⌊h2⌋).toNat := le_antisymm hi12 hge
    rw [key1, key2, ← heq]
    have hff : h1 - (((⌊h1⌋).toNat : ℕ) : ℚ) ≤ h2 - (((⌊h1⌋).toNat : ℕ) : ℚ) := by linarith
    have hp := mul_nonneg (sub_nonneg.mpr hff) (sub_nonneg.mpr hlohi1)
    nlinarith

lemma percentile_rank_nonneg (data : List ℚ) (q : ℚ) (hne : data ≠ []) (h0 : 0 ≤ q) :
    0 ≤ q * ((data.length : ℚ) - 1) / 100 := by
  have hn : 0 < data.length := List.length_pos.mpr hne
  have hn1 : (1 : ℚ) ≤ (data.length : ℚ) := by exact_mod_cast hn
  apply div_nonneg _ (by norm_num)
  exact mul_nonneg h0 (by linarith)

lemma percentile_rank_le (data : List ℚ) (q : ℚ) (hne : data ≠ []) (h100 : q ≤ 100) :
    q * ((data.length : ℚ) - 1) / 100 ≤ (data.length : ℚ) - 1 := by
  have hn : 0 < data.length := List.length_pos.mpr hne
  have hn1 : (1 : ℚ) ≤ (data.length : ℚ) := by exact_mod_cast hn
  rw [div_le_iff₀ (by norm_num : (0:ℚ) < 100)]
  nlinarith

lemma npMin_le_npPercentile (data : List ℚ) (q : ℚ) (hne : data ≠ []) (h0 : 0 ≤ q)
    (h100 : q ≤ 100) : npMin data ≤ npPercentile data q := by
  have hn : 0 < data.length := List.length_pos.mpr hne
  obtain ⟨u, v, hu, hv, hul, hvr⟩ := interpAt_bounds (npSort data) data.length
    (q * ((data.length : ℚ) - 1) / 100) (npSort_sorted data) (npSort_length data) hn
    (percentile_rank_nonneg data q hne h0) (percentile_rank_le data q hne h100)
  exact le_trans (npMin_le (npSort_mem hu)) hul

lemma npPercentile_le_npMax (data : List ℚ) (q : ℚ) (hne : data ≠ []) (h0 : 0 ≤ q)
    (h100 : q ≤ 100) : npPercentile data q ≤ npMax data := by
  have hn : 0 < data.length := List.length_pos.mpr hne
  obtain ⟨u, v, hu, hv, hul, hvr⟩ := interpAt_bounds (npSort data) data.length
    (q * ((data.length : ℚ) - 1) / 100) (npSort_sorted data) (npSort_length data) hn
    (percentile_rank_nonneg data q hne h0) (percentile_rank_le data q hne h100)
  exact le_trans hvr (le_npMax (npSort_mem hv))

lemma npPercentile_mono (data : List ℚ) (q1 q2 : ℚ) (hne : data ≠ []) (h10 : 0 ≤ q1)
    (h12 : q1 ≤ q2) (h2100 : q2 ≤ 100) :
    npPercentile data q1 ≤ npPercentile data q2 := by
  have hn : 0 < data.length := List.length_pos.mpr hne
  have hn1 : (1 : ℚ) ≤ (data.length : ℚ) := by exact_mod_cast hn
  apply interpAt_mono (npSort data) data.length _ _ (npSort_sorted data)
    (npSort_length data) hn (percentile_rank_nonneg data q1 hne h10) _
    (percentile_rank_le data q2 hne h2100)
  have hmul : q1 * ((data.length : ℚ) - 1) ≤ q2 * ((data.length : ℚ) - 1) :=
    mul_le_mul_of_nonneg_right h12 (by linarith)
  exact (div_le_div_iff_of_pos_right (by norm_num : (0:ℚ) < 100)).mpr hmul

lemma npMedian_bounds (data : List ℚ) (hne : data ≠ []) :
    npMin data ≤ npMedian data ∧ npMedian data ≤ npMax data := by
  have hn : 0 < data.length := List.length_pos.mpr hne
  have hlen : (npSort data).length = data.length := npSort_length data
  unfold npMedian
  by_cases hpar : data.length % 2 = 1
  · rw [if_pos hpar]
    have hlt : data.length / 2 < (npSort data).length := by rw [hlen]; omega
    have hmem : (npSort data).getD (data.length / 2) 0 ∈ data := npSort_mem (getD_mem hlt)
    exact ⟨npMin_le hmem, le_npMax hmem⟩
  · rw [if_neg hpar]
    have hlt1 : data.length / 2 - 1 < (npSort data).length := by rw [hlen]; omega
    have hlt2 : data.length / 2 < (npSort data).length := by rw [hlen]; omega
    have hm1 : (npSort data).getD (data.length / 2 - 1) 0 ∈ data := npSort_mem (getD_mem hlt1)
    have hm2 : (npSort data).getD (data.length / 2) 0 ∈ data := npSort_mem (getD_mem hlt2)
    constructor
    · have g1 := npMin_le hm1
      have g2 := npMin_le hm2
      linarith
    · have g1 := le_npMax hm1
      have g2 := le_npMax hm2
      linarith

/-! ## Claim C4 -/

/-- C4: for every non-empty numeric sequence, the metrics computed by
`MetricsCalculator.calculate_metrics` satisfy
percentile_90 ≤ percentile_95 ≤ percentile_99 ≤ max and
min ≤ median ≤ max. -/
theorem metrics_order_properties (npStd : List ℚ → ℚ) (data : List ℚ) (m : MetricsResult)
    (hne : data ≠ [])
    (h : MetricsCalculator.calculate_metrics npStd data = .ok m) :
    m.percentile_90 ≤ m.percentile_95 ∧ m.percentile_95 ≤ m.percentile_99 ∧
    m.percentile_99 ≤ m.max ∧ m.min ≤ m.median ∧ m.median ≤ m.max := by
  have hemp : data.isEmpty = false := by
    cases data with
    | nil => exact absurd rfl hne
    | cons a l => rfl
  unfold MetricsCalculator.calculate_metrics at h
  simp only [hemp, Bool.false_eq_true, if_false] at h
  injection h with h
  subst h
  refine ⟨?_, ?_, ?_, ?_, ?_⟩
  · exact npPercentile_mono data 90 95 hne (by norm_num) (by norm_num) (by norm_num)
  · exact npPercentile_mono data 95 99 hne (by norm_num) (by norm_num) (by norm_num)
  · exact npPercentile_le_npMax data 99 hne (by norm_num) (by norm_num)
  · exact (npMedian_bounds data hne).1
  · exact (npMedian_bounds data hne).2

/-- C4 witness: the metrics of [3, 1, 2] are ordered as claimed. -/
theorem metrics_order_witness :
    ((3:ℚ) :: 1 :: 2 :: []) ≠ [] ∧
    ((14/5 : ℚ) ≤ 29/10 ∧ (29/10 : ℚ) ≤ 149/50 ∧ (149/50 : ℚ) ≤ 3 ∧
      (1:ℚ) ≤ 2 ∧ (2:ℚ) ≤ 3) := by
  constructor
  · simp
  · exact metrics_order_properties (fun _ => 0) ((3:ℚ) :: 1 :: 2 :: [])
      ⟨1, 3, 2, 0, 14/5, 29/10, 149/50⟩ (by simp) (by with_unfolding_all rfl)
